import Mathlib

/-!
Shallow embedding of `src/widget.c` of the zmk-led-widget repository.

The widget is a priority-arbitrated status indicator for a single LED:
event adapters (USB power, connectivity, battery) diff external values
against their last-known state and enqueue messages on a bounded FIFO
queue; a single consumer thread applies the messages to a bitmask of
active patterns (`led_current_patterns`) and a base color
(`led_default_color`), then renders the pattern of the highest set bit.

Machine integers are modelled as `Nat` (the relevant variables are
`uint8_t`); the `uint8_t` truncation of `&= ~(1 << x)` is modelled by
masking with `(1 <<< x) ^^^ 255`, which equals the 8-bit truncation of
the C expression `~(1 << x)` for `x < 8`.  Stateful C code becomes
explicit state passing; external queries (`zmk_usb_is_powered`,
BLE/peripheral connectivity, `zmk_battery_state_of_charge`) become
function parameters, since they are outside this repository.
-/

namespace LedWidget

/-- The C `enum color` from widget.c: `COLOR_OFF = 0, COLOR_ON`. -/
inductive Color where
  | off
  | on
deriving DecidableEq, Fintype

/-- The inline conditional `led_default_color == COLOR_ON ? COLOR_OFF : COLOR_ON`
used in `display_pattern` to blink with the inverse of the base color. -/
def invertColor : Color → Color
  | .on => .off
  | .off => .on

/-- The C `enum pattern_type` from widget.c:
`PATTERN_UNKNOWN = -1, PATTERN_BATT_30, PATTERN_BATT_20, PATTERN_BATT_10,
PATTERN_ADVERTISING, PATTERN_CONNECTED` (lowest priority first). -/
inductive PatternType where
  | unknown
  | batt30
  | batt20
  | batt10
  | advertising
  | connected
deriving DecidableEq, Fintype

/-- The integer value of each `enum pattern_type` constant in the C source. -/
def patternVal : PatternType → Int
  | .unknown => -1
  | .batt30 => 0
  | .batt20 => 1
  | .batt10 => 2
  | .advertising => 3
  | .connected => 4

/-- The C `struct pattern` from widget.c. -/
structure Pattern where
  times : Nat
  duration_ms : Nat
  sleep_ms : Nat
deriving DecidableEq

/-- The Kconfig constants referenced by widget.c; they are configuration
inputs of the program, so they are parameters of the embedding. -/
structure Config where
  battery_blink_ms : Nat
  battery_blink_sleep_ms : Nat
  conn_advertising_ms : Nat
  conn_connected_ms : Nat
  interval_ms : Nat
deriving DecidableEq

/-- The static `PATTERNS[]` table from widget.c, in enum order
(`PATTERN_BATT_30`, `PATTERN_BATT_20`, `PATTERN_BATT_10`,
`PATTERN_ADVERTISING`, `PATTERN_CONNECTED`). -/
def PATTERNS (cfg : Config) : List Pattern :=
  [ { times := 3, duration_ms := cfg.battery_blink_ms, sleep_ms := cfg.battery_blink_sleep_ms },
    { times := 2, duration_ms := cfg.battery_blink_ms, sleep_ms := cfg.battery_blink_sleep_ms },
    { times := 1, duration_ms := cfg.battery_blink_ms, sleep_ms := cfg.battery_blink_sleep_ms },
    { times := 1, duration_ms := cfg.conn_advertising_ms, sleep_ms := 0 },
    { times := 1, duration_ms := cfg.conn_connected_ms, sleep_ms := 0 } ]

/-- Constant `MESSAGE_COLOR_SET` of `enum message_type`. -/
def MESSAGE_COLOR_SET : Nat := 0

/-- Constant `MESSAGE_PATTERN_SWAP` of `enum message_type`. -/
def MESSAGE_PATTERN_SWAP : Nat := 1

/-- The C `struct message_item`.  The `type` field is kept as the underlying
integer so that the defensive `default:` branch of the consumer
`switch` is representable.  The union is modelled as all fields present;
the C designated initializers zero the fields that are not set, so the
unused fields carry the zero values `Color.off` / the first enum values
only as inert payload. -/
structure MessageItem where
  type : Nat
  color : Color
  pattern_off : PatternType
  pattern_on : PatternType
deriving DecidableEq

/-- A `MESSAGE_COLOR_SET` message as built by `indicate_usb_powered`
(`struct message_item msg = {.type = MESSAGE_COLOR_SET}; msg.color = ...`).
The pattern fields of the union are zero-initialized and never read. -/
def colorSetMsg (c : Color) : MessageItem :=
  { type := MESSAGE_COLOR_SET, color := c,
    pattern_off := .batt30, pattern_on := .batt30 }

/-- A `MESSAGE_PATTERN_SWAP` message as built by
`indicate_connectivity_internal` and `set_battery_level`
(`{.type = MESSAGE_PATTERN_SWAP}` with both pattern fields assigned).
The color field of the union is zero-initialized and never read. -/
def patternSwapMsg (po pn : PatternType) : MessageItem :=
  { type := MESSAGE_PATTERN_SWAP, color := .off,
    pattern_off := po, pattern_on := pn }

/-- The engine state owned by the consumer thread: `led_default_color`
and the `uint8_t` bitmask `led_current_patterns`. -/
structure EngineState where
  led_default_color : Color
  led_current_patterns : Nat
deriving DecidableEq

/-- The `switch (msg.type)` body of `led_process_thread` (widget.c
lines 341-363): `MESSAGE_COLOR_SET` replaces `led_default_color`;
`MESSAGE_PATTERN_SWAP` clears bit `pattern_off` (when not
`PATTERN_UNKNOWN`) then sets bit `pattern_on` (when not
`PATTERN_UNKNOWN`); an unknown type is logged and ignored. -/
def applyMsg (s : EngineState) (m : MessageItem) : EngineState :=
  if m.type = MESSAGE_COLOR_SET then
    { s with led_default_color := m.color }
  else if m.type = MESSAGE_PATTERN_SWAP then
    let p1 :=
      if m.pattern_off ≠ PatternType.unknown then
        s.led_current_patterns &&& ((1 <<< (patternVal m.pattern_off).toNat) ^^^ 255)
      else s.led_current_patterns
    let p2 :=
      if m.pattern_on ≠ PatternType.unknown then
        p1 ||| (1 <<< (patternVal m.pattern_on).toNat)
      else p1
    { s with led_current_patterns := p2 }
  else s

/-- Whether the defensive `default:` branch ("Unknown message type") of
the consumer `switch` is taken for a message. -/
def msgUnknownBranch (m : MessageItem) : Bool :=
  if m.type = MESSAGE_COLOR_SET then false
  else if m.type = MESSAGE_PATTERN_SWAP then false
  else true

/-- The `for (highest_priority_pattern = 0; v; highest_priority_pattern++)
v >>= 1;` loop of `led_process_thread` (widget.c lines 370-374). -/
def hsbLoop (v hp : Nat) : Nat :=
  if h : v = 0 then hp else hsbLoop (v >>> 1) (hp + 1)
termination_by v
decreasing_by
  rw [Nat.shiftRight_one]
  exact Nat.div_lt_self (Nat.pos_of_ne_zero h) (by omega)

/-- The highest-set-bit computation of `led_process_thread`:
`uint8_t v = led_current_patterns >> 1;` followed by the counting loop. -/
def highestPriorityPattern (patterns : Nat) : Nat :=
  hsbLoop (patterns >>> 1) 0

/-- One iteration of the consumer loop after the dequeue (widget.c lines
341-376): apply the message, then either render nothing (empty bitmask,
`set_led(led_default_color, 0)` and `continue`) or pass the index of the
highest set bit to `display_pattern`.  The second component is the index
passed to `display_pattern`, `none` when the bitmask is empty. -/
def engineStep (s : EngineState) (m : MessageItem) : EngineState × Option Nat :=
  let s2 := applyMsg s m
  if s2.led_current_patterns = 0 then (s2, none)
  else (s2, some (highestPriorityPattern s2.led_current_patterns))

/-- The call `k_msgq_put(&led_msgq, &msg, K_NO_WAIT)` on the queue declared by
`K_MSGQ_DEFINE(led_msgq, sizeof(struct message_item), 16, 1)`: append
when there is room, silently drop when the queue holds 16 messages. -/
def msgqPut (q : List MessageItem) (m : MessageItem) : List MessageItem :=
  if q.length < 16 then q ++ [m] else q

/-- Enqueue a list of messages in order via `msgqPut`. -/
def msgqPutAll (q : List MessageItem) (ms : List MessageItem) : List MessageItem :=
  ms.foldl msgqPut q

/-- Function `indicate_usb_powered` (widget.c lines 142-157).  The external query
`zmk_usb_is_powered()` is the parameter `powered`; the last-known adapter state `usb_current_powered` is passed and returned
explicitly, together with the list of messages it puts on the queue. -/
def indicate_usb_powered (powered : Bool) (usb_current_powered : Bool) :
    Bool × List MessageItem :=
  if usb_current_powered ≠ powered then
    (powered, [colorSetMsg (if powered then .on else .off)])
  else (usb_current_powered, [])

/-- Function `indicate_connectivity_internal` (widget.c lines 173-222).  The
preprocessor-selected resolution of `next_connectivity_pattern` from the
external BLE/peripheral queries is the parameter; the last-known adapter state `current_connectivity_pattern` is passed and returned
explicitly, together with the enqueued messages (in enqueue order). -/
def indicate_connectivity_internal (next_connectivity_pattern : PatternType)
    (current_connectivity_pattern : PatternType) :
    PatternType × List MessageItem :=
  if current_connectivity_pattern ≠ next_connectivity_pattern then
    if next_connectivity_pattern = PatternType.connected then
      -- only blink the connected pattern once: a second swap retracts it
      -- and the last-known value reverts to PATTERN_UNKNOWN
      (PatternType.unknown,
        [patternSwapMsg current_connectivity_pattern next_connectivity_pattern,
         patternSwapMsg next_connectivity_pattern PatternType.unknown])
    else
      (next_connectivity_pattern,
        [patternSwapMsg current_connectivity_pattern next_connectivity_pattern])
  else (current_connectivity_pattern, [])

/-- Function `set_battery_level` (widget.c lines 251-278): level 0 is
undetermined and ignored; otherwise the level maps to a battery tier
and a swap is enqueued when the tier changed.  `battery_level` is a
`uint8_t`; the thresholds read the same for every `Nat`. -/
def set_battery_level (battery_level : Nat)
    (current_battery_pattern : PatternType) :
    PatternType × List MessageItem :=
  if battery_level = 0 then (current_battery_pattern, [])
  else
    let next_battery_pattern : PatternType :=
      if battery_level ≤ 10 then .batt10
      else if battery_level ≤ 20 then .batt20
      else if battery_level ≤ 30 then .batt30
      else .unknown
    if current_battery_pattern ≠ next_battery_pattern then
      (next_battery_pattern,
        [patternSwapMsg current_battery_pattern next_battery_pattern])
    else (current_battery_pattern, [])

/-- Feed a sequence of battery levels through `set_battery_level`,
accumulating the enqueued messages in order. -/
def runBatteryLevels (current : PatternType) (levels : List Nat) :
    PatternType × List MessageItem :=
  levels.foldl
    (fun acc b =>
      let r := set_battery_level b acc.1
      (r.1, acc.2 ++ r.2))
    (current, [])

/-- The LED hardware state owned by the consumer: the cached
`led_current_color` that makes `set_led` writes edge-triggered. -/
structure LedHw where
  led_current_color : Color
deriving DecidableEq

/-- Observable actions of `set_led`: a physical write (`led_on` /
`led_off`) or a `k_sleep(K_MSEC(duration_ms))`. -/
inductive PhysEvent where
  | write (c : Color)
  | sleepMs (ms : Nat)
deriving DecidableEq

/-- Function `set_led` (widget.c lines 121-134): write the LED only when the
requested color differs from the cached one, then sleep when the
duration is nonzero.  Returns the new hardware state and the emitted
physical events. -/
def set_led (color : Color) (duration_ms : Nat) (hw : LedHw) :
    LedHw × List PhysEvent :=
  let r :=
    if hw.led_current_color ≠ color then
      ({ led_current_color := color }, [PhysEvent.write color])
    else (hw, [])
  (r.1, r.2 ++ if duration_ms > 0 then [PhysEvent.sleepMs duration_ms] else [])

/-- Run a list of `set_led` requests (color, duration) in order. -/
def runCalls (hw : LedHw) (calls : List (Color × Nat)) :
    LedHw × List PhysEvent :=
  calls.foldl
    (fun acc c =>
      let r := set_led c.1 c.2 acc.1
      (r.1, acc.2 ++ r.2))
    (hw, [])

/-- The `for (uint8_t i = 0; i < p->times; i++)` body of
`display_pattern` (widget.c lines 316-321), as the list of `set_led`
requests it makes from iteration `i` on: blink with the inverse of the
base color for `duration_ms`, and between consecutive iterations
(`i < p->times - 1`) return to the base color for `sleep_ms`. -/
def displayLoopCalls (p : Pattern) (base : Color) (i : Nat) :
    List (Color × Nat) :=
  if h : i < p.times then
    (invertColor base, p.duration_ms) ::
      ((if i < p.times - 1 then [(base, p.sleep_ms)] else []) ++
        displayLoopCalls p base (i + 1))
  else []
termination_by p.times - i
decreasing_by omega

/-- Function `display_pattern` (widget.c lines 309-323) as the list of `set_led`
requests it makes: nothing for an out-of-range index (logged and
skipped), otherwise the blink loop followed by the inter-pattern rest
`set_led(led_default_color, CONFIG_LED_WIDGET_INTERVAL_MS)`. -/
def displayPatternCalls (cfg : Config) (pattern_index : Nat) (base : Color) :
    List (Color × Nat) :=
  if h : pattern_index < (PATTERNS cfg).length then
    displayLoopCalls ((PATTERNS cfg).get ⟨pattern_index, h⟩) base 0 ++
      [(base, cfg.interval_ms)]
  else []

/-- Function `display_pattern` run against the LED hardware: the `set_led`
requests interpreted by `set_led` itself. -/
def display_pattern (cfg : Config) (pattern_index : Nat) (base : Color)
    (hw : LedHw) : LedHw × List PhysEvent :=
  runCalls hw (displayPatternCalls cfg pattern_index base)

/-- The process-wide mutable state seen by the event listeners: the
`initialized` flag, the last-known state of each adapter, the pending flag of
the debounced connectivity work item, and the message queue. -/
structure WidgetState where
  initialized : Bool
  usb_current_powered : Bool
  current_connectivity_pattern : PatternType
  current_battery_pattern : PatternType
  conn_work_pending : Bool
  led_msgq : List MessageItem
deriving DecidableEq

/-- Function `led_charge_listener_cb` (widget.c lines 159-165): only when
`initialized` runs `indicate_usb_powered` (the external
`zmk_usb_is_powered()` is the parameter `powered`). -/
def led_charge_listener_cb (w : WidgetState) (powered : Bool) : WidgetState :=
  if w.initialized then
    let r := indicate_usb_powered powered w.usb_current_powered
    { w with usb_current_powered := r.1, led_msgq := msgqPutAll w.led_msgq r.2 }
  else w

/-- Function `led_output_listener_cb` (widget.c lines 229-234): only when
`initialized` calls `indicate_connectivity`, which just reschedules the
debounced work item (`k_work_reschedule`, 16 ms). -/
def led_output_listener_cb (w : WidgetState) : WidgetState :=
  if w.initialized then { w with conn_work_pending := true } else w

/-- Function `led_battery_listener_cb` (widget.c lines 292-299): only when
`initialized` feeds the event payload `state_of_charge` to
`set_battery_level`. -/
def led_battery_listener_cb (w : WidgetState) (state_of_charge : Nat) :
    WidgetState :=
  if w.initialized then
    let r := set_battery_level state_of_charge w.current_battery_pattern
    { w with current_battery_pattern := r.1,
             led_msgq := msgqPutAll w.led_msgq r.2 }
  else w

/-- A message is adapter-produced when some input to one of the three
event adapters makes that adapter enqueue it. -/
def adapterMessage (m : MessageItem) : Prop :=
  (∃ powered last, m ∈ (indicate_usb_powered powered last).2) ∨
  (∃ nextp last, m ∈ (indicate_connectivity_internal nextp last).2) ∨
  (∃ b last, m ∈ (set_battery_level b last).2)

/-- Modelled from the spec (§4.4): the battery tier map as the spec
words it — tier-1 when `b ≤ 10`, tier-2 when `10 < b ≤ 20`, tier-3 when
`20 < b ≤ 30`, none when `b > 30` — used to compare `set_battery_level`
against the description in the spec. -/
def batteryTierSpec (b : Nat) : PatternType :=
  if 30 < b then .unknown
  else if 20 < b then .batt30
  else if 10 < b then .batt20
  else .batt10

/-! ## Helper lemmas about the highest-set-bit loop -/

theorem hsbLoop_acc (v hp : Nat) : hsbLoop v hp = hsbLoop v 0 + hp := by
  induction v using Nat.strong_induction_on generalizing hp with
  | _ v ih =>
    by_cases h : v = 0
    · subst h
      simp [hsbLoop]
    · have hlt : v >>> 1 < v := by
        rw [Nat.shiftRight_one]
        exact Nat.div_lt_self (Nat.pos_of_ne_zero h) (by omega)
      rw [hsbLoop, dif_neg h]
      conv_rhs => rw [hsbLoop, dif_neg h]
      rw [ih _ hlt (hp + 1), ih _ hlt (0 + 1)]
      omega

theorem highestPriorityPattern_eq_log2 (p : Nat) :
    highestPriorityPattern p = Nat.log2 p := by
  unfold highestPriorityPattern
  induction p using Nat.strong_induction_on with
  | _ p ih =>
    by_cases h2 : 2 ≤ p
    · have hlt : p / 2 < p := Nat.div_lt_self (by omega) (by omega)
      have hne : p / 2 ≠ 0 := by omega
      rw [Nat.shiftRight_one, hsbLoop, dif_neg hne, hsbLoop_acc]
      rw [ih (p / 2) hlt]
      conv_rhs => rw [Nat.log2]
      rw [if_pos h2]
    · have : p = 0 ∨ p = 1 := by omega
      rcases this with h | h <;> subst h <;> simp [hsbLoop, Nat.log2]

theorem testBit_log2_self (n : Nat) (hn : n ≠ 0) :
    Nat.testBit n (Nat.log2 n) = true := by
  have h1 : 2 ^ n.log2 ≤ n := Nat.log2_self_le hn
  have h2 : n < 2 ^ (n.log2 + 1) := Nat.lt_log2_self
  rw [Nat.testBit_to_div_mod]
  have hd : n / 2 ^ n.log2 = 1 := by
    apply Nat.div_eq_of_lt_le
    · simpa using h1
    · have hp : (2 : Nat) ^ (n.log2 + 1) = 2 ^ n.log2 * 2 := pow_succ 2 n.log2
      omega
  rw [hd]
  decide

theorem testBit_above_log2 (n j : Nat) (hj : Nat.log2 n < j) :
    Nat.testBit n j = false := by
  apply Nat.testBit_lt_two_pow
  calc n < 2 ^ (n.log2 + 1) := Nat.lt_log2_self
    _ ≤ 2 ^ j := Nat.pow_le_pow_right (by omega) (by omega)

/-! ## C1: priority correctness -/

/-- C1: whenever the active-pattern bitmask is non-empty after applying a
message (the engine step yields a display index), the index passed to
`display_pattern` is the position of the highest set bit of
`led_current_patterns`: that bit is set and every higher bit is clear,
for every bitmask value regardless of how the bits were set. -/
theorem priority_highest_bit (s : EngineState) (m : MessageItem) (i : Nat)
    (h : (engineStep s m).2 = some i) :
    Nat.testBit (applyMsg s m).led_current_patterns i = true ∧
    ∀ j, i < j → Nat.testBit (applyMsg s m).led_current_patterns j = false := by
  have hh : (applyMsg s m).led_current_patterns ≠ 0 ∧
      i = highestPriorityPattern (applyMsg s m).led_current_patterns := by
    simp only [engineStep] at h
    split at h
    · simp at h
    · simp at h
      exact ⟨by assumption, h.symm⟩
  obtain ⟨hne, hi⟩ := hh
  subst hi
  rw [highestPriorityPattern_eq_log2]
  exact ⟨testBit_log2_self _ hne, fun j hj => testBit_above_log2 _ _ hj⟩

theorem priority_highest_bit_witness :
    Nat.testBit (applyMsg ⟨.off, 0⟩
      (patternSwapMsg .unknown .advertising)).led_current_patterns 3 = true ∧
    Nat.testBit (applyMsg ⟨.off, 0⟩
      (patternSwapMsg .unknown .advertising)).led_current_patterns 7 = false := by
  have hstep : (engineStep ⟨.off, 0⟩ (patternSwapMsg .unknown .advertising)).2 = some 3 := by
    simp [engineStep, applyMsg, patternSwapMsg, highestPriorityPattern, hsbLoop,
      patternVal, MESSAGE_COLOR_SET, MESSAGE_PATTERN_SWAP]
  exact ⟨(priority_highest_bit _ _ 3 hstep).1,
    (priority_highest_bit _ _ 3 hstep).2 7 (by omega)⟩

/-! ## C10: the bitmask invariant and valid display indices -/

theorem patternShift_lt (x : PatternType) (hx : x ≠ PatternType.unknown) :
    (1 <<< (patternVal x).toNat) < 32 := by
  cases x
  · exact absurd rfl hx
  all_goals decide

/-- C10: provided every applied swap message carries pattern values from
the `pattern_type` enumeration (inherent in the embedding), a bitmask
below 32 stays below 32 across any message application, and whenever the
engine step yields a display index, that index is a valid index into the
pattern table (so the invalid-index branch of `display_pattern` is not taken). -/
theorem active_set_invariant (cfg : Config) (s : EngineState) (m : MessageItem)
    (h : s.led_current_patterns < 32) :
    (applyMsg s m).led_current_patterns < 32 ∧
    ∀ i, (engineStep s m).2 = some i → i < (PATTERNS cfg).length := by
  have hm : (applyMsg s m).led_current_patterns < 32 := by
    by_cases ht0 : m.type = MESSAGE_COLOR_SET
    · simpa [applyMsg, ht0] using h
    · by_cases ht1 : m.type = MESSAGE_PATTERN_SWAP
      · have hp1 : (if m.pattern_off ≠ PatternType.unknown then
            s.led_current_patterns &&& ((1 <<< (patternVal m.pattern_off).toNat) ^^^ 255)
            else s.led_current_patterns) < 32 := by
          split
          · exact lt_of_le_of_lt Nat.and_le_left h
          · exact h
        by_cases hon : m.pattern_on = PatternType.unknown
        · simpa [applyMsg, ht0, ht1, hon] using hp1
        · have h32 : (32 : Nat) = 2 ^ 5 := by norm_num
          have hor := Nat.or_lt_two_pow (n := 5) (h32 ▸ hp1)
            (h32 ▸ patternShift_lt m.pattern_on hon)
          simp only [applyMsg, ht0, ht1, if_neg, if_pos, hon, ne_eq,
            not_false_iff, ite_true, ite_false]
          simpa [h32] using hor
      · simpa [applyMsg, ht0, ht1] using h
  refine ⟨hm, fun i hi => ?_⟩
  have hh : (applyMsg s m).led_current_patterns ≠ 0 ∧
      i = highestPriorityPattern (applyMsg s m).led_current_patterns := by
    simp only [engineStep] at hi
    split at hi
    · simp at hi
    · simp at hi
      exact ⟨by assumption, hi.symm⟩
  obtain ⟨hne, hi5⟩ := hh
  subst hi5
  rw [highestPriorityPattern_eq_log2]
  have : Nat.log2 (applyMsg s m).led_current_patterns < 5 :=
    (Nat.log2_lt hne).mpr (by omega)
  simpa [PATTERNS] using this

theorem active_set_invariant_witness :
    (applyMsg ⟨.off, 0⟩ (patternSwapMsg .unknown .connected)).led_current_patterns < 32 ∧
    4 < (PATTERNS ⟨1, 1, 1, 1, 1⟩).length :=
  ⟨(active_set_invariant ⟨1, 1, 1, 1, 1⟩ ⟨.off, 0⟩
      (patternSwapMsg .unknown .connected) (by norm_num)).1,
   (active_set_invariant ⟨1, 1, 1, 1, 1⟩ ⟨.off, 0⟩
      (patternSwapMsg .unknown .connected) (by norm_num)).2 4
      (by simp [engineStep, applyMsg, patternSwapMsg, highestPriorityPattern, hsbLoop,
        patternVal, MESSAGE_COLOR_SET, MESSAGE_PATTERN_SWAP])⟩

/-! ## C2: FIFO ordering and the closed message-type set -/

theorem msgqPutAll_append (q ms : List MessageItem)
    (h : q.length + ms.length ≤ 16) : msgqPutAll q ms = q ++ ms := by
  induction ms generalizing q with
  | nil => simp [msgqPutAll]
  | cons m ms ih =>
    simp only [msgqPutAll, List.foldl_cons]
    rw [msgqPut, if_pos (by simp at h ⊢; omega)]
    have h2 := ih (q ++ [m]) (by simp at h ⊢; omega)
    simp only [msgqPutAll] at h2
    rw [h2]
    simp

theorem adapterMessage_known (m : MessageItem) (h : adapterMessage m) :
    msgUnknownBranch m = false := by
  have hk : m.type = MESSAGE_COLOR_SET ∨ m.type = MESSAGE_PATTERN_SWAP := by
    rcases h with ⟨pw, last, hm⟩ | ⟨nx, last, hm⟩ | ⟨b, last, hm⟩
    · by_cases hc : last = pw
      · simp [indicate_usb_powered, hc] at hm
      · simp [indicate_usb_powered, hc] at hm
        subst hm
        exact Or.inl rfl
    · by_cases hc : last = nx
      · simp [indicate_connectivity_internal, hc] at hm
      · by_cases hcn : nx = PatternType.connected
        · subst hcn
          simp [indicate_connectivity_internal, hc] at hm
          rcases hm with hm | hm <;> subst hm <;> exact Or.inr rfl
        · simp [indicate_connectivity_internal, hc, hcn] at hm
          subst hm
          exact Or.inr rfl
    · by_cases hb : b = 0
      · simp [set_battery_level, hb] at hm
      · simp only [set_battery_level, if_neg hb] at hm
        by_cases hc : last =
            (if b ≤ 10 then PatternType.batt10 else if b ≤ 20 then PatternType.batt20
             else if b ≤ 30 then PatternType.batt30 else PatternType.unknown)
        · simp [hc] at hm
        · simp [hc] at hm
          subst hm
          exact Or.inr rfl
  rcases hk with hk | hk <;>
    simp [msgUnknownBranch, hk, MESSAGE_COLOR_SET, MESSAGE_PATTERN_SWAP]

/-- C2: messages enqueued into the (empty, capacity-16) queue come out in
exactly the order they were put in — the queue neither reorders nor
merges — so the engine fold over the queue content equals the fold
over the enqueue sequence; and every adapter-produced message has one of
the two defined types, so the defensive unknown-message branch of the
consumer `switch` is never taken. -/
theorem fifo_closed_message_set (s : EngineState) (ms : List MessageItem)
    (hlen : ms.length ≤ 16) (hprod : ∀ m ∈ ms, adapterMessage m) :
    msgqPutAll [] ms = ms ∧
    List.foldl applyMsg s (msgqPutAll [] ms) = List.foldl applyMsg s ms ∧
    ∀ m ∈ ms, msgUnknownBranch m = false := by
  have hq : msgqPutAll [] ms = ms := msgqPutAll_append [] ms (by simpa using hlen)
  exact ⟨hq, by rw [hq], fun m hm => adapterMessage_known m (hprod m hm)⟩

theorem fifo_closed_message_set_witness :
    msgqPutAll [] [colorSetMsg .on, patternSwapMsg .unknown .connected] =
      [colorSetMsg .on, patternSwapMsg .unknown .connected] ∧
    msgUnknownBranch (colorSetMsg .on) = false := by
  have h := fifo_closed_message_set ⟨.off, 0⟩
      [colorSetMsg .on, patternSwapMsg .unknown .connected] (by decide)
      (fun m hm => by
        rcases List.mem_cons.mp hm with h1 | hm2
        · subst h1
          exact Or.inl ⟨true, false, by decide⟩
        · rcases List.mem_cons.mp hm2 with h1 | h3
          · subst h1
            exact Or.inr (Or.inl ⟨.connected, .unknown, by decide⟩)
          · simp at h3)
  exact ⟨h.1, h.2.2 _ (by decide)⟩

/-! ## C3: connect-blink-once -/

/-- C3: when the debounced connectivity evaluation resolves to
`PATTERN_CONNECTED` and this differs from the last-known value, exactly
two swap messages are enqueued — first (off=last-known, on=Connected),
then (off=Connected, on=none) — and the last-known value reverts to
`PATTERN_UNKNOWN`; after both messages are applied, bit 4 (the
Connected bit) of `led_current_patterns` is clear. -/
theorem connect_blink_once (current : PatternType)
    (h : current ≠ PatternType.connected) :
    indicate_connectivity_internal .connected current =
      (PatternType.unknown,
        [patternSwapMsg current .connected, patternSwapMsg .connected .unknown]) ∧
    ∀ s : EngineState,
      Nat.testBit (applyMsg (applyMsg s (patternSwapMsg current .connected))
        (patternSwapMsg .connected .unknown)).led_current_patterns 4 = false := by
  constructor
  · rw [indicate_connectivity_internal, if_pos h, if_pos rfl]
  · intro s
    simp [applyMsg, patternSwapMsg, MESSAGE_COLOR_SET, MESSAGE_PATTERN_SWAP, patternVal]
    intro hx
    decide

theorem connect_blink_once_witness :
    indicate_connectivity_internal .connected .unknown =
      (PatternType.unknown,
        [patternSwapMsg .unknown .connected, patternSwapMsg .connected .unknown]) ∧
    Nat.testBit (applyMsg (applyMsg ⟨.off, 255⟩ (patternSwapMsg .unknown .connected))
      (patternSwapMsg .connected .unknown)).led_current_patterns 4 = false :=
  ⟨(connect_blink_once .unknown (by decide)).1,
   (connect_blink_once .unknown (by decide)).2 ⟨.off, 255⟩⟩

/-! ## C4: adapter idempotence (refuted for the connectivity adapter) -/

/-- C4 counterexample: feeding the connectivity adapter the resolved
value Connected twice in succession (starting from last-known none)
makes the second, identical call enqueue two further messages — four in
total — because the blink-once rule reverts the last-known value to
none. This refutes both "at most one message total" and "the second
identical call enqueues nothing". -/
theorem adapters_idempotent_counterexample :
    (indicate_connectivity_internal .connected
        (indicate_connectivity_internal .connected .unknown).1).2 ≠ [] ∧
    (indicate_connectivity_internal .connected .unknown).2.length +
      (indicate_connectivity_internal .connected
        (indicate_connectivity_internal .connected .unknown).1).2.length = 4 := by
  decide

/-- C4 amended: the power and battery adapters are idempotent for every
input, and the connectivity adapter is idempotent whenever the resolved
value is not Connected: the second identical call enqueues nothing and
the two calls enqueue at most one message total. (For a resolved value
of Connected the rule fails: each call enqueues the two-message blink
pair, by `adapters_idempotent_counterexample`.) -/
theorem adapters_idempotent_amended :
    (∀ powered last : Bool,
      (indicate_usb_powered powered (indicate_usb_powered powered last).1).2 = [] ∧
      (indicate_usb_powered powered last).2.length +
        (indicate_usb_powered powered (indicate_usb_powered powered last).1).2.length ≤ 1) ∧
    (∀ (b : Nat) (last : PatternType),
      (set_battery_level b (set_battery_level b last).1).2 = [] ∧
      (set_battery_level b last).2.length +
        (set_battery_level b (set_battery_level b last).1).2.length ≤ 1) ∧
    (∀ nextp last : PatternType, nextp ≠ PatternType.connected →
      (indicate_connectivity_internal nextp
        (indicate_connectivity_internal nextp last).1).2 = [] ∧
      (indicate_connectivity_internal nextp last).2.length +
        (indicate_connectivity_internal nextp
          (indicate_connectivity_internal nextp last).1).2.length ≤ 1) := by
  refine ⟨by decide, ?_, ?_⟩
  · intro b last
    by_cases hb : b = 0
    · simp [set_battery_level, hb]
    · simp only [set_battery_level, if_neg hb]
      by_cases hc : last =
          (if b ≤ 10 then PatternType.batt10 else if b ≤ 20 then PatternType.batt20
           else if b ≤ 30 then PatternType.batt30 else PatternType.unknown)
      · simp [hb, hc]
      · simp [hb, hc]
  · intro nextp last h
    by_cases hc : last = nextp
    · simp [indicate_connectivity_internal, hc]
    · simp [indicate_connectivity_internal, hc, h]

theorem adapters_idempotent_amended_witness :
    (indicate_connectivity_internal .advertising
      (indicate_connectivity_internal .advertising .unknown).1).2 = [] :=
  (adapters_idempotent_amended.2.2 .advertising .unknown (by decide)).1

/-! ## C5: battery tier mapping -/

/-- C5: `set_battery_level` ignores level 0 (leaving the last-known
state unchanged), otherwise maps the level to the tier the spec
describes (tier-1 when `b ≤ 10`, tier-2 when `10 < b ≤ 20`, tier-3 when
`20 < b ≤ 30`, none when `b > 30`) and enqueues
`PatternToggle(off=last, on=new)` exactly when the mapped tier differs
from the last-known one; the level sequence 35, 25, 15, 5 from
last-known none yields exactly the toggles none→tier-3, tier-3→tier-2,
tier-2→tier-1. -/
theorem battery_tier_mapping :
    (∀ (current : PatternType) (b : Nat),
      set_battery_level b current =
        if b = 0 then (current, [])
        else if current = batteryTierSpec b then (current, [])
        else (batteryTierSpec b, [patternSwapMsg current (batteryTierSpec b)])) ∧
    runBatteryLevels .unknown [35, 25, 15, 5] =
      (.batt10,
        [patternSwapMsg .unknown .batt30, patternSwapMsg .batt30 .batt20,
         patternSwapMsg .batt20 .batt10]) := by
  constructor
  · intro current b
    by_cases hb : b = 0
    · simp [set_battery_level, hb]
    · have htier :
          (if b ≤ 10 then PatternType.batt10 else if b ≤ 20 then PatternType.batt20
           else if b ≤ 30 then PatternType.batt30 else PatternType.unknown) =
          batteryTierSpec b := by
        unfold batteryTierSpec
        split_ifs <;> first | rfl | omega
      simp only [set_battery_level, if_neg hb, htier]
      by_cases hc : current = batteryTierSpec b
      · simp [hc]
      · simp [hc]
  · decide

/-! ## C6: message application semantics -/

theorem testBit_clear_eq (p i j : Nat) (hi : i < 8) (hj : j < 8) :
    (p &&& ((1 <<< i) ^^^ 255)).testBit j = (p.testBit j && !(decide (j = i))) := by
  rw [Nat.testBit_land, Nat.testBit_xor, Nat.shiftLeft_eq, one_mul,
    Nat.testBit_two_pow, show (255 : Nat) = 2 ^ 8 - 1 by norm_num,
    Nat.testBit_two_pow_sub_one]
  have h8 : decide (j < 8) = true := by simpa using hj
  rw [h8, Bool.xor_true,
    show (decide (i = j)) = (decide (j = i)) from decide_eq_decide.mpr ⟨Eq.symm, Eq.symm⟩]

theorem testBit_set_eq (p i j : Nat) :
    (p ||| (1 <<< i)).testBit j = (p.testBit j || decide (j = i)) := by
  rw [Nat.testBit_lor, Nat.shiftLeft_eq, one_mul, Nat.testBit_two_pow,
    show (decide (i = j)) = (decide (j = i)) from decide_eq_decide.mpr ⟨Eq.symm, Eq.symm⟩]

theorem patternIdx_lt (x : PatternType) (hx : x ≠ PatternType.unknown) :
    (patternVal x).toNat < 8 := by
  cases x
  · exact absurd rfl hx
  all_goals decide

theorem applyMsg_colorSet (s : EngineState) (m : MessageItem)
    (ht : m.type = MESSAGE_COLOR_SET) :
    applyMsg s m =
      { led_default_color := m.color,
        led_current_patterns := s.led_current_patterns } := by
  simp [applyMsg, ht, MESSAGE_COLOR_SET, MESSAGE_PATTERN_SWAP]

theorem applyMsg_swap (s : EngineState) (m : MessageItem)
    (ht : m.type = MESSAGE_PATTERN_SWAP) :
    applyMsg s m =
      { led_default_color := s.led_default_color,
        led_current_patterns :=
          if m.pattern_on ≠ PatternType.unknown then
            (if m.pattern_off ≠ PatternType.unknown then
                s.led_current_patterns &&&
                  ((1 <<< (patternVal m.pattern_off).toNat) ^^^ 255)
              else s.led_current_patterns) ||| (1 <<< (patternVal m.pattern_on).toNat)
          else
            if m.pattern_off ≠ PatternType.unknown then
              s.led_current_patterns &&&
                ((1 <<< (patternVal m.pattern_off).toNat) ^^^ 255)
            else s.led_current_patterns } := by
  simp [applyMsg, ht, MESSAGE_COLOR_SET, MESSAGE_PATTERN_SWAP]

/-- C6: a `MESSAGE_COLOR_SET` message replaces the base color and leaves
the bitmask unchanged; a `MESSAGE_PATTERN_SWAP` message leaves the base
color unchanged and, bit by bit, first clears the `pattern_off` bit (if
not none) then sets the `pattern_on` bit (if not none): the set wins
when they coincide, every other bit is untouched. -/
theorem message_application (s : EngineState) (m : MessageItem) :
    (m.type = MESSAGE_COLOR_SET →
      applyMsg s m =
        { led_default_color := m.color,
          led_current_patterns := s.led_current_patterns }) ∧
    (m.type = MESSAGE_PATTERN_SWAP →
      (applyMsg s m).led_default_color = s.led_default_color ∧
      ∀ j, j < 8 →
        (applyMsg s m).led_current_patterns.testBit j =
          (if m.pattern_on ≠ PatternType.unknown ∧ j = (patternVal m.pattern_on).toNat
           then true
           else if m.pattern_off ≠ PatternType.unknown ∧
               j = (patternVal m.pattern_off).toNat
           then false
           else s.led_current_patterns.testBit j)) := by
  refine ⟨fun ht => applyMsg_colorSet s m ht, fun ht => ?_⟩
  rw [applyMsg_swap s m ht]
  refine ⟨rfl, fun j hj => ?_⟩
  dsimp only
  by_cases hoff : m.pattern_off = PatternType.unknown <;>
    by_cases hon : m.pattern_on = PatternType.unknown
  · rw [if_neg (not_not_intro hon), if_neg (not_not_intro hoff),
      if_neg (fun hc => hc.1 hon), if_neg (fun hc => hc.1 hoff)]
  · rw [if_pos hon, if_neg (not_not_intro hoff), testBit_set_eq]
    by_cases hji : j = (patternVal m.pattern_on).toNat
    · rw [if_pos ⟨hon, hji⟩]
      simp [hji]
    · rw [if_neg (fun hc => hji hc.2), if_neg (fun hc => hc.1 hoff)]
      simp [hji]
  · rw [if_neg (not_not_intro hon), if_pos hoff,
      testBit_clear_eq _ _ _ (patternIdx_lt _ hoff) hj]
    by_cases hji : j = (patternVal m.pattern_off).toNat
    · rw [if_neg (fun hc => hc.1 hon), if_pos ⟨hoff, hji⟩]
      simp [hji]
    · rw [if_neg (fun hc => hc.1 hon), if_neg (fun hc => hji hc.2)]
      simp [hji]
  · rw [if_pos hon, if_pos hoff, testBit_set_eq,
      testBit_clear_eq _ _ _ (patternIdx_lt _ hoff) hj]
    by_cases hjon : j = (patternVal m.pattern_on).toNat
    · rw [if_pos ⟨hon, hjon⟩]
      simp [hjon]
    · by_cases hjoff : j = (patternVal m.pattern_off).toNat
      · rw [if_neg (fun hc => hjon hc.2), if_pos ⟨hoff, hjoff⟩]
        simp [hjon, hjoff]
        exact fun hc => hjon (hjoff.trans hc)
      · rw [if_neg (fun hc => hjon hc.2), if_neg (fun hc => hjoff hc.2)]
        simp [hjon, hjoff]

theorem message_application_witness :
    (applyMsg ⟨Color.off, 17⟩
      (patternSwapMsg .batt30 .batt10)).led_current_patterns.testBit 2 = true := by
  have h := (message_application ⟨Color.off, 17⟩ (patternSwapMsg .batt30 .batt10)).2 rfl
  rw [h.2 2 (by omega)]
  simp [patternSwapMsg, patternVal]

/-! ## C7: pattern rendering -/

theorem displayLoopCalls_closed (p : Pattern) (base : Color) :
    ∀ n i, p.times - i = n →
      displayLoopCalls p base i =
        (List.range n).flatMap fun k =>
          (invertColor base, p.duration_ms) ::
            (if i + k + 1 < p.times then [(base, p.sleep_ms)] else []) := by
  intro n
  induction n with
  | zero =>
    intro i hi
    rw [displayLoopCalls, dif_neg (by omega)]
    simp
  | succ n ih =>
    intro i hi
    rw [displayLoopCalls, dif_pos (by omega), List.range_succ_eq_map,
      List.flatMap_cons, List.flatMap_map, ih (i + 1) (by omega), List.cons_append]
    congr 1
    congr 1
    · exact if_congr (by omega) rfl rfl
    · congr 1
      funext k
      congr 1
      exact if_congr (by omega) rfl rfl

/-- C7: for every valid pattern index, the `set_led` requests that
`display_pattern` makes are exactly `times` blink iterations — each
driving the LED to the inverse of the base color for `duration_ms`, with
a return to the base color for `sleep_ms` between consecutive iterations
(not after the final one) — followed by holding the base color for the
inter-pattern rest interval `CONFIG_LED_WIDGET_INTERVAL_MS`. -/
theorem display_pattern_rendering (cfg : Config) (idx : Nat) (base : Color)
    (h : idx < (PATTERNS cfg).length) :
    displayPatternCalls cfg idx base =
      ((List.range ((PATTERNS cfg).get ⟨idx, h⟩).times).flatMap fun k =>
        (invertColor base, ((PATTERNS cfg).get ⟨idx, h⟩).duration_ms) ::
          (if k + 1 < ((PATTERNS cfg).get ⟨idx, h⟩).times
           then [(base, ((PATTERNS cfg).get ⟨idx, h⟩).sleep_ms)] else [])) ++
      [(base, cfg.interval_ms)] := by
  rw [displayPatternCalls, dif_pos h,
    displayLoopCalls_closed ((PATTERNS cfg).get ⟨idx, h⟩) base
      ((PATTERNS cfg).get ⟨idx, h⟩).times 0 (by omega)]
  congr 1
  congr 1
  funext k
  congr 1
  exact if_congr (by omega) rfl rfl

theorem display_pattern_rendering_witness :
    displayPatternCalls ⟨2, 3, 4, 5, 6⟩ 2 .off = [(Color.on, 2), (Color.off, 6)] :=
  (display_pattern_rendering ⟨2, 3, 4, 5, 6⟩ 2 .off (by decide)).trans (by decide)

/-! ## C8: invalid pattern index tolerance -/

/-- C8: for every pattern index at or beyond the pattern-table length,
`display_pattern` makes no `set_led` request at all — so it drives no
LED output, performs no sleep, and leaves the LED state unchanged. -/
theorem invalid_pattern_index (cfg : Config) (idx : Nat) (base : Color)
    (hw : LedHw) (h : (PATTERNS cfg).length ≤ idx) :
    displayPatternCalls cfg idx base = [] ∧
    display_pattern cfg idx base hw = (hw, []) := by
  have hc : displayPatternCalls cfg idx base = [] := by
    rw [displayPatternCalls, dif_neg (by omega)]
  exact ⟨hc, by simp [display_pattern, hc, runCalls]⟩

theorem invalid_pattern_index_witness :
    displayPatternCalls ⟨1, 1, 1, 1, 1⟩ 5 .off = [] ∧
    display_pattern ⟨1, 1, 1, 1, 1⟩ 5 .off ⟨.on⟩ = (⟨.on⟩, []) :=
  invalid_pattern_index ⟨1, 1, 1, 1, 1⟩ 5 .off ⟨.on⟩ (by decide)

/-! ## C9: boot suppression -/

/-- C9: while `initialized` is false, each of the three event listener
callbacks is a no-op: it enqueues nothing and leaves the last-known state of every adapter (and all other widget state) unchanged. -/
theorem boot_suppression (w : WidgetState) (powered : Bool) (soc : Nat)
    (h : w.initialized = false) :
    led_charge_listener_cb w powered = w ∧
    led_output_listener_cb w = w ∧
    led_battery_listener_cb w soc = w := by
  simp [led_charge_listener_cb, led_output_listener_cb, led_battery_listener_cb, h]

theorem boot_suppression_witness :
    led_charge_listener_cb ⟨false, false, .unknown, .unknown, false, []⟩ true =
      ⟨false, false, .unknown, .unknown, false, []⟩ ∧
    led_output_listener_cb ⟨false, false, .unknown, .unknown, false, []⟩ =
      ⟨false, false, .unknown, .unknown, false, []⟩ ∧
    led_battery_listener_cb ⟨false, false, .unknown, .unknown, false, []⟩ 50 =
      ⟨false, false, .unknown, .unknown, false, []⟩ :=
  boot_suppression ⟨false, false, .unknown, .unknown, false, []⟩ true 50 rfl

end LedWidget
